import Mathlib

/-!
Verification of the message-store query layer of the WhatsApp MCP server
(`whatsapp-mcp-server/whatsapp.py`).

The Python module reads a SQLite store of messages, chats and contacts and
answers filtered, paginated queries (`list_messages`, `list_chats`,
`search_contacts`) and context-window lookups (`get_message_context`).

Shallow-embedding conventions used throughout:

* The SQLite store is modelled as a `Store`: three lists of rows in table
  order.  A `SELECT` without `ORDER BY` (and `fetchone`) returns rows in
  list order; `ORDER BY` is modelled by `List.insertionSort` (a
  deterministic, stable refinement of SQLite's unspecified tie order);
  `LIMIT`/`OFFSET` follow SQLite semantics (`sql_limit`, `sql_offset`:
  a negative `LIMIT` means "no limit", a negative `OFFSET` means 0).
* Timestamps are abstracted as `Int`.  The store columns hold ISO-8601
  text whose lexicographic order agrees with chronological order, so the
  SQL comparisons on the text column are order-isomorphic to `Int`
  comparisons.  `datetime.fromisoformat` on user input is modelled by
  `fromisoformat : String → Option Int` (integer-literal parsing): only
  parse success/failure and the order of the parsed value matter to the
  queries.  `strftime` is modelled by `toString`.
* SQL `LIKE` is modelled by `like_match` with SQLite's documented default
  semantics: `%` matches any sequence, `_` any single character, and
  comparison is ASCII-case-insensitive.  SQL `LOWER` is `lower_str`
  (ASCII lowercasing, as SQLite's built-in `lower`).
* Python exceptions that escape a function are modelled by
  `Except String`; the `sqlite3.Error` paths (unavailable store) are not
  modelled, i.e. the store is assumed reachable.
* Python truthiness tests on optional string parameters (`if after:`)
  are modelled by `opt_truthy`: both `None` and `""` are falsy.
* The `chats.jid` column is unique (schema constraint of the bridge), so
  the `LEFT JOIN chats ON messages.chat_jid = chats.jid` is modelled as a
  first-match lookup `chat_name_of`.
-/

/-- ASCII lowercasing of one character, as SQLite's `lower`/`LIKE` fold:
characters with code 65..90 are shifted by 32, all others unchanged. -/
def lower_char (c : Char) : Char :=
  if 65 ≤ c.toNat ∧ c.toNat ≤ 90 then Char.ofNat (c.toNat + 32) else c

/-- Models SQL `LOWER`: ASCII lowercasing of a string. -/
def lower_str (s : String) : String := String.mk (s.data.map lower_char)

/-- Models the SQLite `LIKE` operator on exploded strings, with default
SQLite semantics: `%` matches any sequence of characters, `_` matches any
single character, other characters compare ASCII-case-insensitively. -/
def like_match : List Char → List Char → Bool
  | [], s => s.isEmpty
  | p :: ps, s =>
    if p = '%' then (s.tails).any (fun t => like_match ps t)
    else
      match s with
      | [] => false
      | c :: t => (if p = '_' then true else lower_char p == lower_char c) && like_match ps t

/-- Models `subject LIKE pattern` in SQLite (default, no `ESCAPE`). -/
def sql_like (pattern s : String) : Bool := like_match pattern.data s.data

/-- Case-insensitive (ASCII) prefix test on exploded strings; used only to
state claims about substring matching, not by the embedded code. -/
def begins_ci : List Char → List Char → Bool
  | [], _ => true
  | _ :: _, [] => false
  | a :: q, b :: s => (lower_char a == lower_char b) && begins_ci q s

/-- Case-insensitive (ASCII) substring containment: the claims' notion of
"contains the query case-insensitively". -/
def contains_ci (q s : String) : Bool := (s.data.tails).any (fun t => begins_ci q.data t)

/-- Literal prefix test on exploded strings; used only to state claims. -/
def begins_lit : List Char → List Char → Bool
  | [], _ => true
  | _ :: _, [] => false
  | a :: q, b :: s => (a == b) && begins_lit q s

/-- Literal substring containment: the claims' notion of "contains the
literal query string". -/
def contains_lit (q s : String) : Bool := (s.data.tails).any (fun t => begins_lit q.data t)

/-- Numeric value of a digit string (most significant digit first). -/
def digits_val (l : List Char) : Nat := l.foldl (fun acc c => acc * 10 + (c.toNat - 48)) 0

/-- Models Python's `datetime.fromisoformat` under the `Int` abstraction of
time points: an optional leading minus sign followed by a nonempty digit
string parses to the corresponding integer, anything else fails (as the
Python function raises `ValueError` on unparseable input, in particular on
the empty string). -/
def fromisoformat (s : String) : Option Int :=
  match s.data with
  | [] => none
  | c :: rest =>
    if c = '-' then
      if rest ≠ [] ∧ rest.all (fun d => d.isDigit) then some (-(Int.ofNat (digits_val rest)))
      else none
    else if (c :: rest).all (fun d => d.isDigit) then some (Int.ofNat (digits_val (c :: rest)))
    else none

/-- Models SQL `LIMIT n`: SQLite treats a negative limit as "no limit". -/
def sql_limit (n : Int) (l : List α) : List α := if n < 0 then l else l.take n.toNat

/-- Models SQL `OFFSET n`: SQLite treats a negative offset as 0. -/
def sql_offset (n : Int) (l : List α) : List α := l.drop n.toNat

/-- Python truthiness of an optional string parameter: `None` and the empty
string are falsy (`if after:` and friends in the Python source). -/
def opt_truthy : Option String → Bool
  | none => false
  | some s => !(s == "")

/-- Row of the `messages` table (timestamp abstracted to `Int`). -/
structure MsgRow where
  timestamp : Int
  sender : String
  content : String
  is_from_me : Bool
  chat_jid : String
  id : String
  media_type : Option String
deriving DecidableEq

/-- Row of the `chats` table. -/
structure ChatRow where
  jid : String
  name : Option String
  last_message_time : Option Int
  last_message : Option String
  last_sender : Option String
  last_is_from_me : Option Bool
deriving DecidableEq

/-- Row of the `contacts` table. -/
structure ContactRow where
  jid : String
  phone_number : String
  name : Option String
deriving DecidableEq

/-- The persisted message store: the three tables, rows in table order. -/
structure Store where
  messages : List MsgRow
  chats : List ChatRow
  contacts : List ContactRow

/-- The `Message` dataclass of `whatsapp.py`. -/
structure Message where
  timestamp : Int
  sender : String
  content : String
  is_from_me : Bool
  chat_jid : String
  id : String
  chat_name : Option String
  media_type : Option String
deriving DecidableEq

/-- The `Chat` dataclass of `whatsapp.py` (the `is_group` property is not
needed by the claims below and is omitted). -/
structure Chat where
  jid : String
  name : Option String
  last_message_time : Option Int
  last_message : Option String
  last_sender : Option String
  last_is_from_me : Option Bool
deriving DecidableEq

/-- The `Contact` dataclass of `whatsapp.py`. -/
structure Contact where
  phone_number : String
  name : Option String
  jid : String
deriving DecidableEq

/-- The `MessageContext` dataclass of `whatsapp.py`. -/
structure MessageContext where
  message : Message
  before : List Message
  after : List Message
deriving DecidableEq

/-- Sort relation of `ORDER BY messages.timestamp DESC`. -/
def ts_desc (x y : MsgRow) : Prop := y.timestamp ≤ x.timestamp

instance : DecidableRel ts_desc := fun x y => inferInstanceAs (Decidable (y.timestamp ≤ x.timestamp))

instance : IsTotal MsgRow ts_desc := ⟨fun x y => le_total y.timestamp x.timestamp⟩

instance : IsTrans MsgRow ts_desc := ⟨fun _ _ _ h1 h2 => le_trans h2 h1⟩

/-- Sort relation of `ORDER BY messages.timestamp ASC`. -/
def ts_asc (x y : MsgRow) : Prop := x.timestamp ≤ y.timestamp

instance : DecidableRel ts_asc := fun x y => inferInstanceAs (Decidable (x.timestamp ≤ y.timestamp))

instance : IsTotal MsgRow ts_asc := ⟨fun x y => le_total x.timestamp y.timestamp⟩

instance : IsTrans MsgRow ts_asc := ⟨fun _ _ _ h1 h2 => le_trans h1 h2⟩

/-- Order on a nullable integer column: SQL `NULL` sorts below every value. -/
def opt_int_le : Option Int → Option Int → Prop
  | none, _ => True
  | some _, none => False
  | some a, some b => a ≤ b

instance : DecidableRel opt_int_le := fun x y =>
  match x, y with
  | none, _ => isTrue trivial
  | some _, none => isFalse id
  | some a, some b => inferInstanceAs (Decidable (a ≤ b))

/-- Order on a nullable text column: SQL `NULL` sorts below every value,
text compares by code points (SQLite `BINARY` collation, which agrees with
Lean's `String` order on ASCII). -/
def opt_str_le : Option String → Option String → Prop
  | none, _ => True
  | some _, none => False
  | some a, some b => a ≤ b

instance : DecidableRel opt_str_le := fun x y =>
  match x, y with
  | none, _ => isTrue trivial
  | some _, none => isFalse id
  | some a, some b => inferInstanceAs (Decidable (a ≤ b))

/-- Sort relation of `ORDER BY chats.last_message_time DESC`. -/
def chat_active_desc (x y : ChatRow) : Prop := opt_int_le y.last_message_time x.last_message_time

instance : DecidableRel chat_active_desc := fun x y =>
  inferInstanceAs (Decidable (opt_int_le y.last_message_time x.last_message_time))

/-- Sort relation of `ORDER BY chats.name ASC`. -/
def chat_name_asc (x y : ChatRow) : Prop := opt_str_le x.name y.name

instance : DecidableRel chat_name_asc := fun x y =>
  inferInstanceAs (Decidable (opt_str_le x.name y.name))

/-- Sort relation of `ORDER BY name ASC` in `search_contacts`. -/
def contact_name_asc (x y : ContactRow) : Prop := opt_str_le x.name y.name

instance : DecidableRel contact_name_asc := fun x y =>
  inferInstanceAs (Decidable (opt_str_le x.name y.name))

instance : IsTotal ContactRow contact_name_asc :=
  ⟨fun x y => by
    unfold contact_name_asc
    cases x.name <;> cases y.name <;> first
      | exact Or.inl trivial
      | exact Or.inr trivial
      | exact le_total _ _⟩

instance : IsTrans ContactRow contact_name_asc :=
  ⟨fun x y z hxy hyz => by
    unfold contact_name_asc at *
    revert hxy hyz
    cases x.name <;> cases y.name <;> cases z.name <;> intro hxy hyz <;> first
      | trivial
      | exact absurd hxy id
      | exact absurd hyz id
      | exact le_trans hxy hyz⟩

/-- The `LEFT JOIN chats ON messages.chat_jid = chats.jid` projection to
`chats.name`: first row of `chats` with the given `jid` (the column being
unique), `NULL` when there is none. -/
def chat_name_of (s : Store) (jid : String) : Option String :=
  match s.chats.find? (fun c => c.jid == jid) with
  | some c => c.name
  | none => none

/-- Row mapping of the message `SELECT`s in `whatsapp.py`: builds the
`Message` dataclass from a `messages` row joined with `chats.name`. -/
def row_to_message (s : Store) (r : MsgRow) : Message :=
  { timestamp := r.timestamp
    sender := r.sender
    content := r.content
    is_from_me := r.is_from_me
    chat_jid := r.chat_jid
    id := r.id
    chat_name := chat_name_of s r.chat_jid
    media_type := r.media_type }

/-- Embeds `get_sender_name`: first contact row matching the JID by either
identifier column; its `name` when present and nonempty, otherwise the raw
JID (the `if result and result[0]:` test). -/
def get_sender_name (s : Store) (sender_jid : String) : String :=
  match s.contacts.find? (fun c => c.jid == sender_jid || c.phone_number == sender_jid) with
  | some c =>
    match c.name with
    | some n => if n == "" then sender_jid else n
    | none => sender_jid
  | none => sender_jid

/-- Embeds `format_message`: the parts list joined by single spaces, then a
trailing newline.  `strftime` is abstracted as `toString` of the `Int`
timestamp. -/
def format_message (s : Store) (m : Message) (show_chat_info : Bool) : String :=
  let sender_name := get_sender_name s m.sender
  let time_str := toString m.timestamp
  let p1 : List String :=
    if show_chat_info && opt_truthy m.chat_name then ["[" ++ m.chat_name.getD "" ++ "]"] else []
  let p2 : List String :=
    if m.is_from_me then ["You (" ++ time_str ++ ")"]
    else [sender_name ++ " (" ++ time_str ++ ")"]
  let p3 : List String :=
    if opt_truthy m.media_type then
      ["[" ++ String.mk ((m.media_type.getD "").data.map Char.toUpper) ++ "]"]
    else []
  let p4 : List String := [": " ++ m.content]
  String.intercalate " " (p1 ++ p2 ++ p3 ++ p4) ++ "\n"

/-- Embeds `format_messages_list`: the fixed string on an empty list,
otherwise the concatenation of the formatted messages. -/
def format_messages_list (s : Store) (messages : List Message) (show_chat_info : Bool) : String :=
  if messages.isEmpty then "No messages to display."
  else String.join (messages.map (fun m => format_message s m show_chat_info))

/-- Error text raised by `list_messages` for an unparseable time bound. -/
def invalid_date_msg (field value : String) : String :=
  "Invalid date format for \x27" ++ field ++ "\x27: " ++ value ++
    ". Please use ISO-8601 format."

/-- Embeds the time-bound handling of `list_messages`: a falsy parameter
(absent or empty, `if after:`) contributes no clause; otherwise the string
must parse, else the whole call raises `ValueError` naming the field and
the offending value. -/
def parse_bound (field : String) : Option String → Except String (Option Int)
  | none => .ok none
  | some s =>
    if s == "" then .ok none
    else
      match fromisoformat s with
      | some t => .ok (some t)
      | none => .error (invalid_date_msg field s)

/-- Conjunction of the `WHERE` clauses built by `list_messages` (each
optional criterion contributes its clause only when truthy): strict time
bounds, exact sender and chat match, case-insensitive content substring. -/
def msg_pred (aT bT : Option Int) (sender chat q : Option String) (r : MsgRow) : Bool :=
  (match aT with | some t => decide (t < r.timestamp) | none => true) &&
  (match bT with | some t => decide (r.timestamp < t) | none => true) &&
  (match sender with | some v => if v == "" then true else r.sender == v | none => true) &&
  (match chat with | some v => if v == "" then true else r.chat_jid == v | none => true) &&
  (match q with
   | some v =>
     if v == "" then true
     else sql_like (lower_str ("%" ++ v ++ "%")) (lower_str r.content)
   | none => true)

/-- The primary row query of `list_messages` after bound parsing: filter,
`ORDER BY messages.timestamp DESC`, `LIMIT limit OFFSET page * limit`, then
row mapping. -/
def list_messages_rows_core (s : Store) (aT bT : Option Int) (sender chat q : Option String)
    (limit page : Int) : List Message :=
  let rows := s.messages.filter (msg_pred aT bT sender chat q)
  let sorted := List.insertionSort ts_desc rows
  (sql_limit limit (sql_offset (page * limit) sorted)).map (row_to_message s)

/-- The primary row query of `list_messages` including bound parsing. -/
def list_messages_rows (s : Store) (after before sender chat q : Option String)
    (limit page : Int) : Except String (List Message) := do
  let aT ← parse_bound "after" after
  let bT ← parse_bound "before" before
  .ok (list_messages_rows_core s aT bT sender chat q limit page)

/-- Embeds `get_message_context`: resolve the target by `id` (`fetchone` on
an unordered `SELECT` = first row in table order; `ValueError` when
absent); the `before` window is the `timestamp < target` rows of the same
chat taken descending then reversed; the `after` window is the
`timestamp > target` rows taken ascending. -/
def get_message_context (s : Store) (message_id : String) (before after : Int) :
    Except String MessageContext :=
  match s.messages.find? (fun r => r.id == message_id) with
  | none => .error ("Message with ID " ++ message_id ++ " not found")
  | some row =>
    let target := row_to_message s row
    let before_rows := sql_limit before (List.insertionSort ts_desc
      (s.messages.filter (fun r =>
        r.chat_jid == target.chat_jid && decide (r.timestamp < target.timestamp))))
    let after_rows := sql_limit after (List.insertionSort ts_asc
      (s.messages.filter (fun r =>
        r.chat_jid == target.chat_jid && decide (target.timestamp < r.timestamp))))
    .ok { message := target
          before := (before_rows.reverse).map (row_to_message s)
          after := after_rows.map (row_to_message s) }

/-- Embeds the context-expansion loop of `list_messages`: each primary
message in order contributes `context.before ++ [context.message] ++
context.after` to the flat output; a `ValueError` from
`get_message_context` propagates and aborts the whole call. -/
def expand_all (s : Store) (cb ca : Int) : List Message → Except String (List Message)
  | [] => .ok []
  | m :: rest => do
    let ctx ← get_message_context s m.id cb ca
    let tail ← expand_all s cb ca rest
    .ok (ctx.before ++ ctx.message :: ctx.after ++ tail)

/-- The context window one primary message contributes to the output of
`list_messages` (empty when the context lookup fails); used to state
claims about the expansion. -/
def context_window (s : Store) (cb ca : Int) (m : Message) : List Message :=
  match get_message_context s m.id cb ca with
  | .ok ctx => ctx.before ++ ctx.message :: ctx.after
  | .error _ => []

/-- Embeds `list_messages` end to end: primary rows, optional context
expansion (`if include_context and result:`), and rendering through
`format_messages_list` with `show_chat_info=True` on both branches.  The
function returns the rendered string, not the list of records. -/
def list_messages (s : Store) (after before sender chat q : Option String)
    (limit page : Int) (include_context : Bool) (cb ca : Int) : Except String String := do
  let result ← list_messages_rows s after before sender chat q limit page
  if include_context && !result.isEmpty then
    let out ← expand_all s cb ca result
    .ok (format_messages_list s out true)
  else
    .ok (format_messages_list s result true)

/-- The optional name filter of `list_chats` (`LOWER(chats.name) LIKE
LOWER(?)` with a `%query%` pattern; a falsy parameter contributes no
clause; a `NULL` name never matches). -/
def chats_pred (q : Option String) (c : ChatRow) : Bool :=
  match q with
  | some v =>
    if v == "" then true
    else
      match c.name with
      | some n => sql_like (lower_str ("%" ++ v ++ "%")) (lower_str n)
      | none => false
  | none => true

/-- Row mapping of `list_chats`: with `include_last_message` the full row,
otherwise the summary columns are selected as `NULL`. -/
def chat_of_row (include_last_message : Bool) (c : ChatRow) : Chat :=
  if include_last_message then
    { jid := c.jid
      name := c.name
      last_message_time := c.last_message_time
      last_message := c.last_message
      last_sender := c.last_sender
      last_is_from_me := c.last_is_from_me }
  else
    { jid := c.jid
      name := c.name
      last_message_time := c.last_message_time
      last_message := none
      last_sender := none
      last_is_from_me := none }

/-- Embeds `list_chats`: optional name filter; `ORDER BY` only for the two
recognized `sort_by` values (`"last_active"` descending by
`last_message_time`, `"name"` ascending), any other value adds no ordering
clause; then `LIMIT limit OFFSET page * limit` and row mapping. -/
def list_chats (s : Store) (q : Option String) (limit page : Int)
    (include_last_message : Bool) (sort_by : String) : List Chat :=
  let base := s.chats.filter (chats_pred q)
  let sorted :=
    if sort_by == "last_active" then List.insertionSort chat_active_desc base
    else if sort_by == "name" then List.insertionSort chat_name_asc base
    else base
  (sql_limit limit (sql_offset (page * limit) sorted)).map (chat_of_row include_last_message)

/-- The `WHERE` clause of `search_contacts`: `LOWER(name) LIKE LOWER(?) OR
phone_number LIKE ?`, both with the `%query%` pattern (SQLite `LIKE` is
ASCII-case-insensitive on both clauses; a `NULL` name never matches). -/
def contact_pred (q : String) (c : ContactRow) : Bool :=
  (match c.name with
   | some n => sql_like (lower_str ("%" ++ q ++ "%")) (lower_str n)
   | none => false) ||
  sql_like ("%" ++ q ++ "%") c.phone_number

/-- Embeds `search_contacts`: filter, `ORDER BY name ASC`, `LIMIT 50`, row
mapping to the `Contact` dataclass. -/
def search_contacts (s : Store) (q : String) : List Contact :=
  (sql_limit 50 (List.insertionSort contact_name_asc (s.contacts.filter (contact_pred q)))).map
    (fun c => { phone_number := c.phone_number, name := c.name, jid := c.jid })

/-- Result of `search_contacts` as claim C8 words it: exactly the contacts
whose name contains the query case-insensitively OR whose phone number
contains the literal query string, ordered by name ascending, capped at
50.  Stated from the claim, to be compared with the embedded code. -/
def search_contacts_claimed (s : Store) (q : String) : List Contact :=
  ((List.insertionSort contact_name_asc (s.contacts.filter (fun c =>
      (match c.name with
       | some n => contains_ci q n
       | none => false) ||
      contains_lit q c.phone_number))).take 50).map
    (fun c => { phone_number := c.phone_number, name := c.name, jid := c.jid })

/-- Result of `search_contacts` as amended claim C8 words it: as
`search_contacts_claimed` but with the phone-number clause also
ASCII-case-insensitive (SQLite's default `LIKE` behavior). -/
def search_contacts_amended (s : Store) (q : String) : List Contact :=
  ((List.insertionSort contact_name_asc (s.contacts.filter (fun c =>
      (match c.name with
       | some n => contains_ci q n
       | none => false) ||
      contains_ci q c.phone_number))).take 50).map
    (fun c => { phone_number := c.phone_number, name := c.name, jid := c.jid })

/-- A query string free of SQL `LIKE` metacharacters. -/
def no_wildcards (q : String) : Prop := ∀ c ∈ q.data, c ≠ '%' ∧ c ≠ '_'

instance (q : String) : Decidable (no_wildcards q) :=
  inferInstanceAs (Decidable (∀ c ∈ q.data, c ≠ '%' ∧ c ≠ '_'))


/-- Concrete store used by witnesses: the spec's scenario store, one group
chat `"120@g.us"` with three messages at timestamps 1 < 2 < 3. -/
def demo_store : Store :=
  { messages :=
      [ { timestamp := 1, sender := "5551", content := "hello", is_from_me := false,
          chat_jid := "120@g.us", id := "m1", media_type := none },
        { timestamp := 2, sender := "5552", content := "hi there", is_from_me := true,
          chat_jid := "120@g.us", id := "m2", media_type := none },
        { timestamp := 3, sender := "5551", content := "bye", is_from_me := false,
          chat_jid := "120@g.us", id := "m3", media_type := none } ],
    chats :=
      [ { jid := "120@g.us", name := some "Group", last_message_time := some 3,
          last_message := some "bye", last_sender := some "5551",
          last_is_from_me := some false } ],
    contacts :=
      [ { jid := "5551@s.whatsapp.net", phone_number := "5551", name := some "Ana Garcia" } ] }

/-- A store with no rows at all. -/
def empty_store : Store := { messages := [], chats := [], contacts := [] }

/-- Concrete store with 101 chats, used to refute the 100-row cap of
claim C4. -/
def many_chats_store : Store :=
  { messages := [],
    chats := (List.range 101).map (fun i =>
      { jid := toString i, name := none, last_message_time := none,
        last_message := none, last_sender := none, last_is_from_me := none }),
    contacts := [] }

/-- Concrete store with a single contact whose phone-number text contains
letters, used to refute the "literal" phone match of claim C8. -/
def letter_phone_store : Store :=
  { messages := [], chats := [],
    contacts := [ { jid := "j1", phone_number := "ABC", name := none } ] }

/-- Concrete store with three contacts, used as the C8 witness. -/
def contacts_store : Store :=
  { messages := [], chats := [],
    contacts :=
      [ { jid := "j1", phone_number := "111", name := some "Ana Garcia" },
        { jid := "j2", phone_number := "222ana3", name := none },
        { jid := "j3", phone_number := "999", name := some "Bob" } ] }

theorem toNat_ofNat_valid {n : Nat} (h : n < 55296) : (Char.ofNat n).toNat = n := by
  unfold Char.ofNat
  split
  · rfl
  · rename_i hv
    exact absurd (Or.inl h) hv

theorem lower_char_of_upper {c : Char} (h : 65 ≤ c.toNat ∧ c.toNat ≤ 90) :
    lower_char c = Char.ofNat (c.toNat + 32) := by
  unfold lower_char
  exact if_pos h

theorem lower_char_of_not {c : Char} (h : ¬(65 ≤ c.toNat ∧ c.toNat ≤ 90)) :
    lower_char c = c := by
  unfold lower_char
  exact if_neg h

theorem lower_char_toNat_of_upper {c : Char} (h : 65 ≤ c.toNat ∧ c.toNat ≤ 90) :
    (lower_char c).toNat = c.toNat + 32 := by
  rw [lower_char_of_upper h]
  exact toNat_ofNat_valid (by omega)

theorem lower_char_idem (c : Char) : lower_char (lower_char c) = lower_char c := by
  by_cases hb : 65 ≤ c.toNat ∧ c.toNat ≤ 90
  · have ht := lower_char_toNat_of_upper hb
    exact lower_char_of_not (by rw [ht]; omega)
  · rw [lower_char_of_not hb]
    exact lower_char_of_not hb

theorem lower_char_pct_iff {c : Char} : lower_char c = '%' ↔ c = '%' := by
  constructor
  · intro h
    by_cases hb : 65 ≤ c.toNat ∧ c.toNat ≤ 90
    · exfalso
      have ht := lower_char_toNat_of_upper hb
      rw [h] at ht
      have h37 : ('%').toNat = 37 := rfl
      omega
    · rwa [lower_char_of_not hb] at h
  · rintro rfl
    exact lower_char_of_not (by decide)

theorem lower_char_und_iff {c : Char} : lower_char c = '_' ↔ c = '_' := by
  constructor
  · intro h
    by_cases hb : 65 ≤ c.toNat ∧ c.toNat ≤ 90
    · exfalso
      have ht := lower_char_toNat_of_upper hb
      rw [h] at ht
      have h95 : ('_').toNat = 95 := rfl
      omega
    · rwa [lower_char_of_not hb] at h
  · rintro rfl
    exact lower_char_of_not (by decide)

theorem like_match_pct (ps s : List Char) :
    like_match ('%' :: ps) s = (s.tails).any (fun t => like_match ps t) := by
  simp [like_match]

theorem like_match_cons_nil {p : Char} (ps : List Char) (hp : p ≠ '%') :
    like_match (p :: ps) [] = false := by
  simp [like_match, hp]

theorem like_match_cons_cons {p c : Char} (ps t : List Char) (hp : p ≠ '%') (hu : p ≠ '_') :
    like_match (p :: ps) (c :: t) = ((lower_char p == lower_char c) && like_match ps t) := by
  simp [like_match, hp, hu]

theorem like_match_pct_iff {ps s : List Char} :
    like_match ('%' :: ps) s = true ↔ ∃ a b, s = a ++ b ∧ like_match ps b = true := by
  rw [like_match_pct, List.any_eq_true]
  constructor
  · rintro ⟨t, ht, hm⟩
    obtain ⟨a, ha⟩ := (List.mem_tails t s).mp ht
    exact ⟨a, t, ha.symm, hm⟩
  · rintro ⟨a, b, rfl, hm⟩
    exact ⟨b, (List.mem_tails b (a ++ b)).mpr (List.suffix_append a b), hm⟩

theorem like_match_append_iff {q : List Char} (rest : List Char)
    (hq : ∀ c ∈ q, c ≠ '%' ∧ c ≠ '_') (s : List Char) :
    like_match (q ++ rest) s = true ↔
      ∃ a b, s = a ++ b ∧ a.map lower_char = q.map lower_char ∧ like_match rest b = true := by
  induction q generalizing s with
  | nil =>
    constructor
    · intro h
      exact ⟨[], s, rfl, rfl, h⟩
    · rintro ⟨a, b, rfl, hmap, hb⟩
      rw [List.map_eq_nil_iff.mp hmap]
      exact hb
  | cons p q ih =>
    obtain ⟨hp, hu⟩ := hq p (List.mem_cons_self p q)
    have hq' : ∀ c ∈ q, c ≠ '%' ∧ c ≠ '_' := fun c hc => hq c (List.mem_cons_of_mem p hc)
    cases s with
    | nil =>
      rw [List.cons_append, like_match_cons_nil (q ++ rest) hp]
      simp only [Bool.false_eq_true, false_iff]
      rintro ⟨a, b, hab, hmap, -⟩
      cases a with
      | nil => simp at hmap
      | cons a0 a1 => simp at hab
    | cons c t =>
      rw [List.cons_append, like_match_cons_cons (q ++ rest) t hp hu, Bool.and_eq_true, ih hq']
      constructor
      · rintro ⟨hc, a, b, rfl, hmap, hrest⟩
        refine ⟨c :: a, b, rfl, ?_, hrest⟩
        simp only [List.map_cons, hmap]
        rw [(beq_iff_eq ..).mp hc]
      · rintro ⟨a, b, hab, hmap, hrest⟩
        cases a with
        | nil => simp at hmap
        | cons a0 a1 =>
          rw [List.cons_append] at hab
          injection hab with h1 h2
          subst h1
          simp only [List.map_cons] at hmap
          injection hmap with hm1 hm2
          exact ⟨(beq_iff_eq ..).mpr hm1.symm, a1, b, h2, hm2, hrest⟩

theorem like_match_single_pct (s : List Char) : like_match ['%'] s = true := by
  rw [like_match_pct, List.any_eq_true]
  exact ⟨[], (List.mem_tails [] s).mpr List.nil_suffix, rfl⟩

theorem like_match_infix_iff {q : List Char} (hq : ∀ c ∈ q, c ≠ '%' ∧ c ≠ '_')
    (s : List Char) :
    like_match ('%' :: (q ++ ['%'])) s = true ↔
      ∃ x y z, s = x ++ y ++ z ∧ y.map lower_char = q.map lower_char := by
  rw [like_match_pct_iff]
  constructor
  · rintro ⟨a, b, rfl, hb⟩
    rw [like_match_append_iff ['%'] hq] at hb
    obtain ⟨y, z, rfl, hmap, -⟩ := hb
    exact ⟨a, y, z, by rw [List.append_assoc], hmap⟩
  · rintro ⟨x, y, z, rfl, hmap⟩
    refine ⟨x, y ++ z, by rw [List.append_assoc], ?_⟩
    rw [like_match_append_iff ['%'] hq]
    exact ⟨y, z, rfl, hmap, like_match_single_pct z⟩

theorem begins_ci_iff {q t : List Char} :
    begins_ci q t = true ↔ ∃ y z, t = y ++ z ∧ y.map lower_char = q.map lower_char := by
  induction q generalizing t with
  | nil =>
    constructor
    · intro _
      exact ⟨[], t, rfl, rfl⟩
    · intro _
      rfl
  | cons p q ih =>
    cases t with
    | nil =>
      simp only [begins_ci, Bool.false_eq_true, false_iff]
      rintro ⟨y, z, hyz, hmap⟩
      cases y with
      | nil => simp at hmap
      | cons y0 y1 => simp at hyz
    | cons c t =>
      simp only [begins_ci, Bool.and_eq_true, ih]
      constructor
      · rintro ⟨hc, y, z, rfl, hmap⟩
        refine ⟨c :: y, z, rfl, ?_⟩
        simp only [List.map_cons, hmap]
        rw [(beq_iff_eq ..).mp hc]
      · rintro ⟨y, z, hyz, hmap⟩
        cases y with
        | nil => simp at hmap
        | cons y0 y1 =>
          rw [List.cons_append] at hyz
          injection hyz with h1 h2
          subst h1
          simp only [List.map_cons] at hmap
          injection hmap with hm1 hm2
          exact ⟨(beq_iff_eq ..).mpr hm1.symm, y1, z, h2, hm2⟩

theorem contains_ci_iff {q s : String} :
    contains_ci q s = true ↔
      ∃ x y z, s.data = x ++ y ++ z ∧ y.map lower_char = q.data.map lower_char := by
  unfold contains_ci
  rw [List.any_eq_true]
  constructor
  · rintro ⟨t, ht, hb⟩
    obtain ⟨x, hx⟩ := (List.mem_tails t s.data).mp ht
    obtain ⟨y, z, rfl, hmap⟩ := begins_ci_iff.mp hb
    exact ⟨x, y, z, by rw [← hx, List.append_assoc], hmap⟩
  · rintro ⟨x, y, z, hs, hmap⟩
    refine ⟨y ++ z, (List.mem_tails (y ++ z) s.data).mpr ⟨x, by rw [hs, List.append_assoc]⟩, ?_⟩
    exact begins_ci_iff.mpr ⟨y, z, rfl, hmap⟩

theorem sql_like_eq_contains_ci {q : String} (hq : no_wildcards q) (n : String) :
    sql_like ("%" ++ q ++ "%") n = contains_ci q n := by
  rw [Bool.eq_iff_iff]
  unfold sql_like
  have hdata : ("%" ++ q ++ "%").data = '%' :: (q.data ++ ['%']) := rfl
  rw [hdata, like_match_infix_iff hq, contains_ci_iff]

theorem like_match_lower (p : List Char) : ∀ s : List Char,
    like_match (p.map lower_char) (s.map lower_char) = like_match p s := by
  induction p with
  | nil =>
    intro s
    cases s <;> simp [like_match]
  | cons pc p ih =>
    intro s
    by_cases hpct : pc = '%'
    · subst hpct
      have hl : lower_char '%' = '%' := lower_char_of_not (by decide)
      simp only [List.map_cons, hl]
      rw [like_match_pct, like_match_pct, Bool.eq_iff_iff, List.any_eq_true, List.any_eq_true,
        List.map_tails]
      constructor
      · rintro ⟨t, ht, hm⟩
        obtain ⟨u, hu, rfl⟩ := List.mem_map.mp ht
        exact ⟨u, hu, by rw [← ih u]; exact hm⟩
      · rintro ⟨t, ht, hm⟩
        exact ⟨t.map lower_char, List.mem_map.mpr ⟨t, ht, rfl⟩, by rw [ih t]; exact hm⟩
    · by_cases hund : pc = '_'
      · subst hund
        have hl : lower_char '_' = '_' := lower_char_of_not (by decide)
        cases s with
        | nil =>
          simp only [List.map_cons, List.map_nil, hl]
          rw [like_match_cons_nil _ (by decide), like_match_cons_nil _ (by decide)]
        | cons c t =>
          simp only [List.map_cons, hl]
          simp only [like_match, reduceIte, if_pos rfl]
          simp only [Bool.true_and]
          exact ih t
      · cases s with
        | nil =>
          have hne : lower_char pc ≠ '%' := fun h => hpct (lower_char_pct_iff.mp h)
          simp only [List.map_cons, List.map_nil]
          rw [like_match_cons_nil _ hne, like_match_cons_nil _ hpct]
        | cons c t =>
          have hne : lower_char pc ≠ '%' := fun h => hpct (lower_char_pct_iff.mp h)
          have hne2 : lower_char pc ≠ '_' := fun h => hund (lower_char_und_iff.mp h)
          simp only [List.map_cons]
          rw [like_match_cons_cons _ _ hne hne2, like_match_cons_cons _ _ hpct hund,
            lower_char_idem, lower_char_idem, ih t]

theorem sql_like_lower (p s : String) :
    sql_like (lower_str p) (lower_str s) = sql_like p s := by
  unfold sql_like lower_str
  exact like_match_lower p.data s.data

theorem pages_flatten (S : List α) (L k : Nat) :
    ((List.range (k + 1)).map (fun i => (S.drop (i * L)).take L)).flatten = S.take ((k + 1) * L) := by
  induction k with
  | zero =>
    rw [show List.range 1 = [0] from rfl]
    simp
  | succ k ih =>
    rw [List.range_succ, List.map_append, List.flatten_append]
    simp only [List.map_cons, List.map_nil, List.flatten_cons, List.flatten_nil, List.append_nil]
    rw [ih, show (k + 1 + 1) * L = (k + 1) * L + L by ring, List.take_add]

theorem two_le_sum_of_two_mem (L : List Nat) (i j : Nat) (hij : i ≠ j)
    (hi : i < L.length) (hj : j < L.length)
    (h1 : 1 ≤ L.get ⟨i, hi⟩) (h2 : 1 ≤ L.get ⟨j, hj⟩) : 2 ≤ L.sum := by
  induction L generalizing i j with
  | nil => exact absurd hi (by simp)
  | cons a t ih =>
    cases i with
    | zero =>
      cases j with
      | zero => exact absurd rfl hij
      | succ j =>
        have hjt : j < t.length := by simpa using hj
        have hmem : t.get ⟨j, hjt⟩ ∈ t := List.get_mem t j hjt
        have hsum : t.get ⟨j, hjt⟩ ≤ t.sum := List.le_sum_of_mem hmem
        have hget : 1 ≤ t.get ⟨j, hjt⟩ := h2
        simp only [List.sum_cons]
        have ha : 1 ≤ a := h1
        omega
    | succ i =>
      cases j with
      | zero =>
        have hit : i < t.length := by simpa using hi
        have hmem : t.get ⟨i, hit⟩ ∈ t := List.get_mem t i hit
        have hsum : t.get ⟨i, hit⟩ ≤ t.sum := List.le_sum_of_mem hmem
        have hget : 1 ≤ t.get ⟨i, hit⟩ := h1
        simp only [List.sum_cons]
        have ha : 1 ≤ a := h2
        omega
      | succ j =>
        have hit : i < t.length := by simpa using hi
        have hjt : j < t.length := by simpa using hj
        have := ih i j (fun h => hij (by rw [h])) hit hjt h1 h2
        simp only [List.sum_cons]
        omega

theorem gmc_error_iff (s : Store) (mid : String) (b a : Int) :
    get_message_context s mid b a = .error ("Message with ID " ++ mid ++ " not found") ↔
      ∀ r ∈ s.messages, r.id ≠ mid := by
  unfold get_message_context
  cases hf : s.messages.find? (fun r => r.id == mid) with
  | none =>
    exact iff_of_true rfl (fun r hr => by simpa using List.find?_eq_none.mp hf r hr)
  | some row =>
    apply iff_of_false
    · exact fun h => Except.noConfusion h
    · intro hall
      have hp := List.find?_some hf
      simp only [beq_iff_eq] at hp
      exact hall row (List.mem_of_find?_eq_some hf) hp

theorem gmc_ok_of_mem (s : Store) {mid : String} (b a : Int) (r : MsgRow)
    (hr : r ∈ s.messages) (hid : r.id = mid) :
    ∃ ctx, get_message_context s mid b a = .ok ctx := by
  unfold get_message_context
  have hs : (s.messages.find? (fun r => r.id == mid)).isSome :=
    List.find?_isSome.mpr ⟨r, hr, (beq_iff_eq ..).mpr hid⟩
  obtain ⟨row, hrow⟩ := Option.isSome_iff_exists.mp hs
  rw [hrow]
  exact ⟨_, rfl⟩

/-- Claim C6: `get_message_context` fails with the not-found error exactly
when no message with the given identifier exists in the store (a failure
mode distinct from returning an empty context), and succeeds whenever one
exists. -/
theorem c6_not_found_error (s : Store) (mid : String) (b a : Int) :
    (get_message_context s mid b a = .error ("Message with ID " ++ mid ++ " not found") ↔
      ∀ r ∈ s.messages, r.id ≠ mid) ∧
    ((∃ r ∈ s.messages, r.id = mid) → ∃ ctx, get_message_context s mid b a = .ok ctx) := by
  refine ⟨gmc_error_iff s mid b a, ?_⟩
  rintro ⟨r, hr, hid⟩
  exact gmc_ok_of_mem s b a r hr hid

theorem c6_witness :
    (get_message_context demo_store "zzz" 1 1 =
      .error ("Message with ID " ++ "zzz" ++ " not found") ↔
      ∀ r ∈ demo_store.messages, r.id ≠ "zzz") ∧
    ((∃ r ∈ demo_store.messages, r.id = "zzz") →
      ∃ ctx, get_message_context demo_store "zzz" 1 1 = .ok ctx) :=
  c6_not_found_error demo_store "zzz" 1 1

theorem mem_of_mem_sql_limit {n : Int} {l : List α} {x : α} (h : x ∈ sql_limit n l) : x ∈ l := by
  unfold sql_limit at h
  split at h
  · exact h
  · exact List.mem_of_mem_take h

theorem sql_limit_sublist (n : Int) (l : List α) : List.Sublist (sql_limit n l) l := by
  unfold sql_limit
  split
  · exact List.Sublist.refl l
  · exact List.take_sublist _ l

theorem length_sql_limit_le {n : Int} (hn : 0 ≤ n) (l : List α) :
    (sql_limit n l).length ≤ n.toNat := by
  unfold sql_limit
  rw [if_neg (not_lt.mpr hn), List.length_take]
  exact min_le_left _ _

/-- Claim C1: for every existing target message and all nonnegative
`before_count`/`after_count`, `get_message_context` succeeds and returns a
context whose `before` window holds only same-chat messages strictly older
than the target in ascending timestamp order, whose `after` window holds
only same-chat messages strictly newer than the target in ascending order,
and whose window lengths are bounded by the requested counts (shorter
windows when fewer messages exist, still without error). -/
theorem c1_context_window (s : Store) (mid : String) (b a : Int)
    (hb : 0 ≤ b) (ha : 0 ≤ a) (r : MsgRow) (hr : r ∈ s.messages) (hid : r.id = mid) :
    ∃ ctx, get_message_context s mid b a = .ok ctx ∧
      (∀ m ∈ ctx.before, m.chat_jid = ctx.message.chat_jid ∧
        m.timestamp < ctx.message.timestamp) ∧
      ctx.before.Pairwise (fun x y => x.timestamp ≤ y.timestamp) ∧
      (∀ m ∈ ctx.after, m.chat_jid = ctx.message.chat_jid ∧
        ctx.message.timestamp < m.timestamp) ∧
      ctx.after.Pairwise (fun x y => x.timestamp ≤ y.timestamp) ∧
      ctx.before.length ≤ b.toNat ∧ ctx.after.length ≤ a.toNat := by
  have hs : (s.messages.find? (fun r => r.id == mid)).isSome :=
    List.find?_isSome.mpr ⟨r, hr, (beq_iff_eq ..).mpr hid⟩
  obtain ⟨row0, hrow⟩ := Option.isSome_iff_exists.mp hs
  unfold get_message_context
  rw [hrow]
  refine ⟨_, rfl, ?_, ?_, ?_, ?_, ?_, ?_⟩
  · intro m hm
    rw [List.mem_map] at hm
    obtain ⟨rr, hrr, rfl⟩ := hm
    rw [List.mem_reverse] at hrr
    have hrr2 := mem_of_mem_sql_limit hrr
    have hrr3 := (List.perm_insertionSort ts_desc _).mem_iff.mp hrr2
    rw [List.mem_filter] at hrr3
    obtain ⟨-, hp⟩ := hrr3
    simp only [Bool.and_eq_true, beq_iff_eq, decide_eq_true_eq] at hp
    exact hp
  · have hsorted := List.sorted_insertionSort ts_desc
      (s.messages.filter (fun rr =>
        rr.chat_jid == (row_to_message s row0).chat_jid &&
        decide (rr.timestamp < (row_to_message s row0).timestamp)))
    have h1 := hsorted.sublist (sql_limit_sublist b _)
    have h2 : ((sql_limit b _).reverse).Pairwise
        (fun x y : MsgRow => x.timestamp ≤ y.timestamp) :=
      List.pairwise_reverse.mpr h1
    exact h2.map (row_to_message s) (fun x y h => h)
  · intro m hm
    rw [List.mem_map] at hm
    obtain ⟨rr, hrr, rfl⟩ := hm
    have hrr2 := mem_of_mem_sql_limit hrr
    have hrr3 := (List.perm_insertionSort ts_asc _).mem_iff.mp hrr2
    rw [List.mem_filter] at hrr3
    obtain ⟨-, hp⟩ := hrr3
    simp only [Bool.and_eq_true, beq_iff_eq, decide_eq_true_eq] at hp
    exact hp
  · have hsorted := List.sorted_insertionSort ts_asc
      (s.messages.filter (fun rr =>
        rr.chat_jid == (row_to_message s row0).chat_jid &&
        decide ((row_to_message s row0).timestamp < rr.timestamp)))
    have h1 := hsorted.sublist (sql_limit_sublist a _)
    exact h1.map (row_to_message s) (fun x y h => h)
  · rw [List.length_map, List.length_reverse]
    exact length_sql_limit_le hb _
  · rw [List.length_map]
    exact length_sql_limit_le ha _

theorem c1_witness :
    ∃ ctx, get_message_context demo_store "m2" 1 1 = .ok ctx ∧
      (∀ m ∈ ctx.before, m.chat_jid = ctx.message.chat_jid ∧
        m.timestamp < ctx.message.timestamp) ∧
      ctx.before.Pairwise (fun x y => x.timestamp ≤ y.timestamp) ∧
      (∀ m ∈ ctx.after, m.chat_jid = ctx.message.chat_jid ∧
        ctx.message.timestamp < m.timestamp) ∧
      ctx.after.Pairwise (fun x y => x.timestamp ≤ y.timestamp) ∧
      ctx.before.length ≤ (1 : Int).toNat ∧ ctx.after.length ≤ (1 : Int).toNat :=
  c1_context_window demo_store "m2" 1 1 (by decide) (by decide)
    { timestamp := 2, sender := "5552", content := "hi there", is_from_me := true,
      chat_jid := "120@g.us", id := "m2", media_type := none }
    (by decide) rfl

theorem mem_of_mem_sql_offset {n : Int} {l : List α} {x : α} (h : x ∈ sql_offset n l) : x ∈ l :=
  List.mem_of_mem_drop h

theorem core_mem {s : Store} {aT bT : Option Int} {sender chat q : Option String}
    {limit page : Int} {m : Message}
    (h : m ∈ list_messages_rows_core s aT bT sender chat q limit page) :
    ∃ rr, rr ∈ s.messages ∧ msg_pred aT bT sender chat q rr = true ∧
      m = row_to_message s rr := by
  unfold list_messages_rows_core at h
  rw [List.mem_map] at h
  obtain ⟨rr, hrr, rfl⟩ := h
  have h2 := mem_of_mem_sql_offset (mem_of_mem_sql_limit hrr)
  have h3 := (List.perm_insertionSort ts_desc _).mem_iff.mp h2
  rw [List.mem_filter] at h3
  exact ⟨rr, h3.1, h3.2, rfl⟩

theorem rows_ok_elim {s : Store} {after before sender chat q : Option String}
    {limit page : Int} {msgs : List Message}
    (h : list_messages_rows s after before sender chat q limit page = .ok msgs) :
    ∃ aT bT, parse_bound "after" after = .ok aT ∧ parse_bound "before" before = .ok bT ∧
      msgs = list_messages_rows_core s aT bT sender chat q limit page := by
  unfold list_messages_rows at h
  cases hA : parse_bound "after" after with
  | error e =>
    rw [hA] at h
    exact Except.noConfusion h
  | ok aT =>
    rw [hA] at h
    cases hB : parse_bound "before" before with
    | error e =>
      rw [hB] at h
      exact Except.noConfusion h
    | ok bT =>
      rw [hB] at h
      exact ⟨aT, bT, rfl, rfl, (Except.ok.inj h).symm⟩

theorem fromisoformat_empty : fromisoformat "" = none := rfl

theorem parse_bound_some_eq (field sa : String) :
    parse_bound field (some sa) =
      (if (sa == "") = true then Except.ok none
       else
         match fromisoformat sa with
         | some t => Except.ok (some t)
         | none => Except.error (invalid_date_msg field sa)) := rfl

theorem parse_bound_of_parse {field sa : String} {ta : Int} (hp : fromisoformat sa = some ta) :
    parse_bound field (some sa) = .ok (some ta) := by
  rw [parse_bound_some_eq, if_neg, hp]
  intro hh
  rw [(beq_iff_eq ..).mp hh] at hp
  exact Option.noConfusion (fromisoformat_empty ▸ hp)

theorem parse_bound_fail {field sa : String} (hne : sa ≠ "") (hp : fromisoformat sa = none) :
    parse_bound field (some sa) = .error (invalid_date_msg field sa) := by
  rw [parse_bound_some_eq, if_neg, hp]
  intro hh
  exact hne ((beq_iff_eq ..).mp hh)

/-- Claim C3: with a supplied and parseable time bound, a message whose
timestamp equals the bound never appears in the filtered result of
`list_messages`: the lower bound selects strictly greater timestamps and
the upper bound strictly smaller ones. -/
theorem c3_exclusive_bounds (s : Store) (after before sender chat q : Option String)
    (limit page : Int) (msgs : List Message)
    (h : list_messages_rows s after before sender chat q limit page = .ok msgs) :
    (∀ sa ta, after = some sa → fromisoformat sa = some ta →
      ∀ m ∈ msgs, m.timestamp ≠ ta) ∧
    (∀ sb tb, before = some sb → fromisoformat sb = some tb →
      ∀ m ∈ msgs, m.timestamp ≠ tb) := by
  obtain ⟨aT, bT, hA, hB, rfl⟩ := rows_ok_elim h
  constructor
  · intro sa ta hsa hta m hm
    subst hsa
    rw [parse_bound_of_parse hta] at hA
    have haT : aT = some ta := (Except.ok.inj hA).symm
    subst haT
    obtain ⟨rr, -, hp, rfl⟩ := core_mem hm
    simp only [msg_pred, Bool.and_eq_true, decide_eq_true_eq] at hp
    exact ne_of_gt hp.1.1.1.1
  · intro sb tb hsb htb m hm
    subst hsb
    rw [parse_bound_of_parse htb] at hB
    have hbT : bT = some tb := (Except.ok.inj hB).symm
    subst hbT
    obtain ⟨rr, -, hp, rfl⟩ := core_mem hm
    simp only [msg_pred, Bool.and_eq_true, decide_eq_true_eq] at hp
    exact ne_of_lt hp.1.1.1.2

theorem c3_witness :
    (∀ sa ta, (some "1" : Option String) = some sa → fromisoformat sa = some ta →
      ∀ m ∈ list_messages_rows_core demo_store (some 1) none none none none 20 0,
        m.timestamp ≠ ta) ∧
    (∀ sb tb, (none : Option String) = some sb → fromisoformat sb = some tb →
      ∀ m ∈ list_messages_rows_core demo_store (some 1) none none none none 20 0,
        m.timestamp ≠ tb) :=
  c3_exclusive_bounds demo_store (some "1") none none none none 20 0
    (list_messages_rows_core demo_store (some 1) none none none none 20 0) rfl

/-- Counterexample to claim C4: the code applies no server-side clamp to
`limit`; with 101 chats in the store a single `list_chats` call with
`limit = 101` returns 101 primary rows, more than the claimed hard cap of
100. -/
theorem c4_counterexample :
    100 < (list_chats many_chats_store none 101 0 true "bogus").length := by decide

/-- Amended claim C4: `limit` is not clamped to 100; for every nonnegative
caller-supplied `limit`, a listing call returns at most `limit` primary
rows (the bound is the caller's own value, with no server-side cap). -/
theorem c4_amended (s : Store) (aT bT : Option Int) (sender chat q qc : Option String)
    (limit page : Int) (hl : 0 ≤ limit) (ilm : Bool) (sb : String) :
    (list_messages_rows_core s aT bT sender chat q limit page).length ≤ limit.toNat ∧
    (list_chats s qc limit page ilm sb).length ≤ limit.toNat := by
  constructor
  · unfold list_messages_rows_core
    rw [List.length_map]
    exact length_sql_limit_le hl _
  · unfold list_chats
    rw [List.length_map]
    exact length_sql_limit_le hl _

theorem c4_witness :
    (list_messages_rows_core demo_store none none none none none 2 0).length ≤
      (2 : Int).toNat ∧
    (list_chats demo_store none 2 0 true "last_active").length ≤ (2 : Int).toNat :=
  c4_amended demo_store none none none none none none 2 0 (by decide) true "last_active"

/-- Counterexample to claim C5: the empty string is a supplied bound that
`datetime.fromisoformat` cannot parse, yet `list_messages` silently skips
it (the Python truthiness test `if after:` is false for `""`) and the
query succeeds instead of failing with a validation error. -/
theorem c5_counterexample :
    fromisoformat "" = none ∧
    list_messages empty_store (some "") none none none none 20 0 true 1 1 =
      .ok "No messages to display." := ⟨rfl, rfl⟩

/-- Amended claim C5: for every supplied NON-EMPTY bound that fails to
parse, the whole query fails with the `ValueError` text naming the field
and the offending string, and no rows are returned; the empty-string bound
alone is exempt, being skipped by the Python truthiness test. -/
theorem c5_amended (s : Store) (after before sender chat q : Option String)
    (limit page : Int) (ic : Bool) (cb ca : Int) :
    (∀ sa, after = some sa → sa ≠ "" → fromisoformat sa = none →
      list_messages s after before sender chat q limit page ic cb ca =
        .error (invalid_date_msg "after" sa)) ∧
    (∀ sb aT, before = some sb → sb ≠ "" → fromisoformat sb = none →
      parse_bound "after" after = .ok aT →
      list_messages s after before sender chat q limit page ic cb ca =
        .error (invalid_date_msg "before" sb)) := by
  constructor
  · intro sa hsa hne hp
    subst hsa
    unfold list_messages list_messages_rows
    rw [parse_bound_fail hne hp]
    rfl
  · intro sb aT hsb hne hp hA
    subst hsb
    unfold list_messages list_messages_rows
    rw [hA, parse_bound_fail hne hp]
    rfl

theorem c5_witness :
    list_messages demo_store (some "garbage") none none none none 20 0 true 1 1 =
      .error (invalid_date_msg "after" "garbage") :=
  (c5_amended demo_store (some "garbage") none none none none 20 0 true 1 1).1
    "garbage" rfl (by decide) rfl

theorem pages_flatten_map (S : List β) (f : β → γ) (L k : Nat) :
    ((List.range (k + 1)).map (fun i => ((S.drop (i * L)).take L).map f)).flatten =
      (S.take ((k + 1) * L)).map f := by
  calc ((List.range (k + 1)).map (fun i => ((S.drop (i * L)).take L).map f)).flatten
      = (((List.range (k + 1)).map (fun i => (S.drop (i * L)).take L)).map (List.map f)).flatten := by
        rw [List.map_map]
        rfl
    _ = (((List.range (k + 1)).map (fun i => (S.drop (i * L)).take L)).flatten).map f :=
        (List.map_flatten f _).symm
    _ = (S.take ((k + 1) * L)).map f := by rw [pages_flatten]

theorem core_cast (s : Store) (aT bT : Option Int) (sender chat q : Option String)
    (L i : Nat) :
    list_messages_rows_core s aT bT sender chat q (L : Int) (i : Int) =
      (((List.insertionSort ts_desc (s.messages.filter (msg_pred aT bT sender chat q))).drop
        (i * L)).take L).map (row_to_message s) := by
  simp only [list_messages_rows_core, sql_limit, sql_offset]
  rw [if_neg (by omega : ¬ ((L : Int) < 0))]
  have h2 : (((i : Nat) : Int) * ((L : Nat) : Int)).toNat = i * L := by
    rw [show (((i : Nat) : Int) * ((L : Nat) : Int)) = ((i * L : Nat) : Int) by push_cast; ring]
    rfl
  rw [h2]
  rfl

theorem list_chats_cast (s : Store) (qc : Option String) (ilm : Bool) (sb : String)
    (L i : Nat) :
    list_chats s qc (L : Int) (i : Int) ilm sb =
      (((if sb == "last_active" then
          List.insertionSort chat_active_desc (s.chats.filter (chats_pred qc))
         else if sb == "name" then
          List.insertionSort chat_name_asc (s.chats.filter (chats_pred qc))
         else s.chats.filter (chats_pred qc)).drop (i * L)).take L).map (chat_of_row ilm) := by
  simp only [list_chats, sql_limit, sql_offset]
  rw [if_neg (by omega : ¬ ((L : Int) < 0))]
  have h2 : (((i : Nat) : Int) * ((L : Nat) : Int)).toNat = i * L := by
    rw [show (((i : Nat) : Int) * ((L : Nat) : Int)) = ((i * L : Nat) : Int) by push_cast; ring]
    rfl
  rw [h2]
  rfl

/-- Claim C7: for a fixed store, positive page size and any page count,
concatenating pages 0..k (offset = page * limit, ordering applied before
limit/offset) equals one call for page 0 with size limit * (k + 1), for the
message listing and for the chat listing, under the claim's no-ties
hypothesis on the sort key (the deterministic embedding of `ORDER BY` makes
the identity hold without consulting that hypothesis). -/
theorem c7_pagination (s : Store) (aT bT : Option Int) (sender chat q qc : Option String)
    (ilm : Bool) (sb : String) (limit : Int) (k : Nat) (hl : 0 < limit)
    (hties : (s.messages.filter (msg_pred aT bT sender chat q)).Pairwise
      (fun x y => x.timestamp ≠ y.timestamp)) :
    ((List.range (k + 1)).map (fun (i : Nat) =>
        list_messages_rows_core s aT bT sender chat q limit (i : Int))).flatten =
      list_messages_rows_core s aT bT sender chat q (limit * ((k : Int) + 1)) 0 ∧
    ((List.range (k + 1)).map (fun (i : Nat) => list_chats s qc limit (i : Int) ilm sb)).flatten =
      list_chats s qc (limit * ((k : Int) + 1)) 0 ilm sb := by
  obtain ⟨L, rfl⟩ : ∃ L : Nat, limit = (L : Int) := ⟨limit.toNat, (Int.toNat_of_nonneg hl.le).symm⟩
  have hbig : ((L : Int) * ((k : Int) + 1)) = ((L * (k + 1) : Nat) : Int) := by push_cast; ring
  constructor
  · rw [List.map_eq_map_iff.mpr (fun i _ => core_cast s aT bT sender chat q L i),
      pages_flatten_map, hbig,
      show (0 : Int) = ((0 : Nat) : Int) from rfl, core_cast s aT bT sender chat q (L * (k + 1)) 0,
      Nat.zero_mul, List.drop_zero, Nat.mul_comm]
  · rw [List.map_eq_map_iff.mpr (fun i _ => list_chats_cast s qc ilm sb L i),
      pages_flatten_map, hbig,
      show (0 : Int) = ((0 : Nat) : Int) from rfl, list_chats_cast s qc ilm sb (L * (k + 1)) 0,
      Nat.zero_mul, List.drop_zero, Nat.mul_comm]

theorem c7_witness :
    ((List.range (1 + 1)).map (fun (i : Nat) =>
        list_messages_rows_core demo_store none none none none none 2 (i : Int))).flatten =
      list_messages_rows_core demo_store none none none none none (2 * ((1 : Int) + 1)) 0 ∧
    ((List.range (1 + 1)).map (fun (i : Nat) =>
        list_chats demo_store none 2 (i : Int) true "last_active")).flatten =
      list_chats demo_store none (2 * ((1 : Int) + 1)) 0 true "last_active" :=
  c7_pagination demo_store none none none none none none true "last_active" 2 1
    (by decide) (by decide)

/-- Claim C9: an unrecognized `sort_by` value does not fail `list_chats`
(the embedded function is total): no ordering clause is applied and, given
enough pages, the concatenated pages return the complete candidate set of
chats passing the optional name filter. -/
theorem c9_unrecognized_sort (s : Store) (q : Option String) (limit : Int) (ilm : Bool)
    (sb : String) (k : Nat) (h1 : sb ≠ "last_active") (h2 : sb ≠ "name") (hl : 0 < limit)
    (hcov : (s.chats.filter (chats_pred q)).length ≤ (k + 1) * limit.toNat) :
    ((List.range (k + 1)).map (fun (i : Nat) => list_chats s q limit (i : Int) ilm sb)).flatten =
      (s.chats.filter (chats_pred q)).map (chat_of_row ilm) := by
  obtain ⟨L, rfl⟩ : ∃ L : Nat, limit = (L : Int) := ⟨limit.toNat, (Int.toNat_of_nonneg hl.le).symm⟩
  have hcov2 : (s.chats.filter (chats_pred q)).length ≤ (k + 1) * L := by
    simpa using hcov
  rw [List.map_eq_map_iff.mpr (fun i _ => list_chats_cast s q ilm sb L i), pages_flatten_map]
  rw [if_neg (by simp [beq_false_of_ne h1] : ¬ ((sb == "last_active") = true)),
    if_neg (by simp [beq_false_of_ne h2] : ¬ ((sb == "name") = true))]
  rw [List.take_of_length_le hcov2]

theorem c9_witness :
    ((List.range (0 + 1)).map (fun (i : Nat) => list_chats demo_store none 20 (i : Int) true "bogus")).flatten =
      (demo_store.chats.filter (chats_pred none)).map (chat_of_row true) :=
  c9_unrecognized_sort demo_store none 20 true "bogus" 0 (by decide) (by decide)
    (by decide) (by decide)

theorem expand_all_eq {s : Store} {cb ca : Int} : ∀ {ms : List Message},
    (∀ m ∈ ms, ∃ rr ∈ s.messages, rr.id = m.id) →
    expand_all s cb ca ms = .ok ((ms.map (context_window s cb ca)).flatten) := by
  intro ms
  induction ms with
  | nil => intro _; rfl
  | cons m rest ih =>
    intro hall
    obtain ⟨rr, hrr, hid⟩ := hall m (List.mem_cons_self m rest)
    obtain ⟨ctx, hctx⟩ := gmc_ok_of_mem s cb ca rr hrr hid
    show (get_message_context s m.id cb ca).bind _ = _
    rw [hctx]
    show (expand_all s cb ca rest).bind _ = _
    rw [ih (fun x hx => hall x (List.mem_cons_of_mem m hx))]
    show Except.ok (ctx.before ++ ctx.message :: ctx.after ++ (rest.map (context_window s cb ca)).flatten) = _
    rw [List.map_cons, List.flatten_cons]
    unfold context_window
    rw [hctx, List.append_assoc, List.cons_append]

theorem core_ids_resolvable {s : Store} {aT bT : Option Int} {sender chat q : Option String}
    {limit page : Int} :
    ∀ m ∈ list_messages_rows_core s aT bT sender chat q limit page,
      ∃ rr ∈ s.messages, rr.id = m.id := by
  intro m hm
  obtain ⟨rr, hrr, -, rfl⟩ := core_mem hm
  exact ⟨rr, hrr, rfl⟩

/-- Claim C2: with context requested, `list_messages` expands each primary
match independently into its window and renders the plain concatenation
`(before..., message, after...)` over the matches in result order, with no
cross-window deduplication: a message lying in the windows of two distinct
matches is counted at least twice in the flat output. -/
theorem c2_no_dedup (s : Store) (after before sender chat q : Option String)
    (limit page cb ca : Int) (msgs : List Message)
    (h : list_messages_rows s after before sender chat q limit page = .ok msgs) :
    list_messages s after before sender chat q limit page true cb ca =
      .ok (format_messages_list s ((msgs.map (context_window s cb ca)).flatten) true) ∧
    (∀ i j (hi : i < msgs.length) (hj : j < msgs.length), i ≠ j → ∀ x : Message,
      x ∈ context_window s cb ca (msgs.get ⟨i, hi⟩) →
      x ∈ context_window s cb ca (msgs.get ⟨j, hj⟩) →
      2 ≤ ((msgs.map (context_window s cb ca)).flatten).count x) := by
  have hres : ∀ m ∈ msgs, ∃ rr ∈ s.messages, rr.id = m.id := by
    obtain ⟨aT, bT, -, -, rfl⟩ := rows_ok_elim h
    exact core_ids_resolvable
  constructor
  · show (list_messages_rows s after before sender chat q limit page).bind _ = _
    rw [h]
    show (if true && !msgs.isEmpty then _ else _) = _
    cases hempty : msgs.isEmpty with
    | true =>
      rw [List.isEmpty_iff.mp hempty]
      rfl
    | false =>
      show (if true && !false then _ else _) = _
      rw [show (true && !false) = true from rfl, if_pos rfl]
      show (expand_all s cb ca msgs).bind _ = _
      rw [expand_all_eq hres]
      rfl
  · intro i j hi hj hij x hxi hxj
    rw [List.count_flatten]
    have hlen : ((msgs.map (context_window s cb ca)).map (List.count x)).length = msgs.length := by
      simp
    apply two_le_sum_of_two_mem _ i j hij (by simpa using hi) (by simpa using hj)
    · rw [List.get_map, List.get_map]
      exact List.count_pos_iff.mpr hxi
    · rw [List.get_map, List.get_map]
      exact List.count_pos_iff.mpr hxj

theorem c2_witness :
    (list_messages demo_store none none none none none 20 0 true 1 1 =
      .ok (format_messages_list demo_store
        (((list_messages_rows_core demo_store none none none none none 20 0).map
          (context_window demo_store 1 1)).flatten) true)) ∧
    2 ≤ (((list_messages_rows_core demo_store none none none none none 20 0).map
        (context_window demo_store 1 1)).flatten).count
        (row_to_message demo_store
          { timestamp := 2, sender := "5552", content := "hi there", is_from_me := true,
            chat_jid := "120@g.us", id := "m2", media_type := none }) := by
  have h := c2_no_dedup demo_store none none none none none 20 0 1 1
    (list_messages_rows_core demo_store none none none none none 20 0) rfl
  refine ⟨h.1, ?_⟩
  exact h.2 0 1 (by decide) (by decide) (by decide)
    (row_to_message demo_store
      { timestamp := 2, sender := "5552", content := "hi there", is_from_me := true,
        chat_jid := "120@g.us", id := "m2", media_type := none })
    (by decide) (by decide)

/-- Claim C10: whenever its bounds validate (the store itself is assumed
reachable in the embedding), `list_messages` returns a single rendered
string produced by `format_messages_list` — not a list of `Message`
records — and when no message matches the filters that string is exactly
"No messages to display.". -/
theorem c10_formatted_output (s : Store) (after before sender chat q : Option String)
    (limit page : Int) (ic : Bool) (cb ca : Int) (aT bT : Option Int)
    (hA : parse_bound "after" after = .ok aT) (hB : parse_bound "before" before = .ok bT) :
    (∃ out : List Message, list_messages s after before sender chat q limit page ic cb ca =
      .ok (format_messages_list s out true)) ∧
    (list_messages_rows_core s aT bT sender chat q limit page = [] →
      list_messages s after before sender chat q limit page ic cb ca =
        .ok "No messages to display.") := by
  have hrows : list_messages_rows s after before sender chat q limit page =
      .ok (list_messages_rows_core s aT bT sender chat q limit page) := by
    unfold list_messages_rows
    rw [hA, hB]
    rfl
  constructor
  · show ∃ out, (list_messages_rows s after before sender chat q limit page).bind _ = _
    rw [hrows]
    show ∃ out, (if ic && !(list_messages_rows_core s aT bT sender chat q limit page).isEmpty
      then _ else _) = _
    cases hc : (ic && !(list_messages_rows_core s aT bT sender chat q limit page).isEmpty) with
    | false =>
      rw [if_neg Bool.false_ne_true]
      exact ⟨list_messages_rows_core s aT bT sender chat q limit page, rfl⟩
    | true =>
      rw [if_pos rfl]
      refine ⟨((list_messages_rows_core s aT bT sender chat q limit page).map
        (context_window s cb ca)).flatten, ?_⟩
      show (expand_all s cb ca _).bind _ = _
      rw [expand_all_eq core_ids_resolvable]
      rfl
  · intro hzero
    show (list_messages_rows s after before sender chat q limit page).bind _ = _
    rw [hrows, hzero]
    show (if ic && !(List.isEmpty []) then _ else _) = _
    rw [show (ic && !(List.isEmpty ([] : List Message))) = false by simp]
    rfl

theorem c10_witness :
    (∃ out : List Message, list_messages demo_store none (some "1") none none none 20 0 true 1 1 =
      .ok (format_messages_list demo_store out true)) ∧
    (list_messages_rows_core demo_store none (some 1) none none none 20 0 = [] →
      list_messages demo_store none (some "1") none none none 20 0 true 1 1 =
        .ok "No messages to display.") :=
  c10_formatted_output demo_store none (some "1") none none none 20 0 true 1 1
    none (some 1) rfl rfl

/-- Counterexample to claim C8: SQLite's `LIKE` is ASCII-case-insensitive
also on the phone-number clause, so with one contact whose phone-number
text is "ABC", the query "abc" returns that contact while the claim's
literal-containment reading returns nothing. -/
theorem c8_counterexample :
    search_contacts letter_phone_store "abc" ≠
      search_contacts_claimed letter_phone_store "abc" := by decide

/-- Amended claim C8: for every query free of `LIKE` metacharacters,
`search_contacts` returns exactly the contacts whose name OR phone number
contains the query ASCII-case-insensitively (the phone clause is
case-insensitive too, not literal), ordered by name ascending (SQL `NULL`
names first), hard-capped at 50 results. -/
theorem c8_amended (s : Store) (q : String) (hq : no_wildcards q) :
    search_contacts s q = search_contacts_amended s q ∧
    (search_contacts s q).Pairwise (fun c d : Contact => opt_str_le c.name d.name) ∧
    (search_contacts s q).length ≤ 50 := by
  have hq2 : ∀ c ∈ q.data, c ≠ '%' ∧ c ≠ '_' := hq
  have hpred : ∀ c : ContactRow, contact_pred q c =
      ((match c.name with
        | some n => contains_ci q n
        | none => false) || contains_ci q c.phone_number) := by
    intro c
    unfold contact_pred
    have hphone : sql_like ("%" ++ q ++ "%") c.phone_number = contains_ci q c.phone_number :=
      sql_like_eq_contains_ci hq2 c.phone_number
    cases c.name with
    | none =>
      dsimp only
      rw [hphone]
    | some n =>
      dsimp only
      rw [hphone, sql_like_lower, sql_like_eq_contains_ci hq2 n]
  refine ⟨?_, ?_, ?_⟩
  · unfold search_contacts search_contacts_amended
    rw [List.filter_congr (fun c _ => hpred c)]
    rw [show sql_limit 50 (List.insertionSort contact_name_asc (s.contacts.filter _)) =
      (List.insertionSort contact_name_asc (s.contacts.filter (fun c =>
        ((match c.name with
          | some n => contains_ci q n
          | none => false) || contains_ci q c.phone_number)))).take 50 from by
        unfold sql_limit
        rw [if_neg (by omega)]
        rfl]
  · unfold search_contacts
    have hsorted := List.sorted_insertionSort contact_name_asc (s.contacts.filter (contact_pred q))
    have h1 := hsorted.sublist (sql_limit_sublist 50 _)
    exact h1.map _ (fun x y h => h)
  · unfold search_contacts
    rw [List.length_map]
    exact length_sql_limit_le (by omega) _

theorem c8_witness :
    (search_contacts contacts_store "ana" = search_contacts_amended contacts_store "ana" ∧
      (search_contacts contacts_store "ana").Pairwise
        (fun c d : Contact => opt_str_le c.name d.name) ∧
      (search_contacts contacts_store "ana").length ≤ 50) ∧
    search_contacts contacts_store "ana" =
      [ { phone_number := "222ana3", name := none, jid := "j2" },
        { phone_number := "111", name := some "Ana Garcia", jid := "j1" } ] :=
  ⟨c8_amended contacts_store "ana" (by decide), by decide⟩
